import Mathlib

set_option maxHeartbeats 1000000

/-
  Verification development for the Hechari/testownweb repository.

  Shallow embedding of the two core components:
  - the character behavior state machine
    (src/js/interactions/animation-controller.js, class AnimationController),
  - the fixed-timestep update scheduler
    (src/js/engine/pixel-scalling.js, class GameLoop),
  plus the direction classifier (src/js/core/utils.js, Utils.getMouseDirection)
  and the audio volume constant (src/js/core/config.js, CONFIG.GAME.AUDIO_VOLUME).

  JS numbers used for wall-clock millisecond arithmetic are modelled as
  exact rationals; timestamps as integers.  Collaborator calls
  (AUDIO_SYSTEM, CHARACTER_SYSTEM, registered transition callbacks, subsystem
  update/render hooks) are modelled as emitted events, with an environment
  describing which collaborator calls throw.  Console logging is not
  modelled except where a claim mentions it (error logging events).
-/

namespace Testownweb

/-! Model definitions -/

/-- The eight character states of the behavior state machine
(animation-controller.js, createStateMachine keys). -/
inductive State where
  | idle
  | backflip_east
  | backflip_west
  | crouching
  | sleeping
  | curious
  | alert
  | excited
deriving DecidableEq, Repr, Fintype

/-- The trigger tokens appearing as keys of the transitions sub-objects in
createStateMachine (animation-controller.js lines 19-93). -/
inductive Trigger where
  | hover_east
  | hover_west
  | click
  | timeout
  | curious
  | complete
  | interrupt
  | hover
  | double_click
  | wake_up
  | satisfied
  | scared
  | excited
  | calm
  | threat
  | all_clear
  | tired
deriving DecidableEq, Repr, Fintype

/-- The fixed transition table: for a state s and trigger t, the value of
stateMachine[s].transitions[t], or none when the key is absent
(animation-controller.js lines 19-93). -/
def transitions (s : State) (t : Trigger) : Option State :=
  match s, t with
  | .idle, .hover_east => some .backflip_east
  | .idle, .hover_west => some .backflip_west
  | .idle, .click => some .crouching
  | .idle, .timeout => some .sleeping
  | .idle, .curious => some .curious
  | .backflip_east, .complete => some .idle
  | .backflip_east, .interrupt => some .idle
  | .backflip_west, .complete => some .idle
  | .backflip_west, .interrupt => some .idle
  | .crouching, .complete => some .idle
  | .crouching, .hover => some .alert
  | .crouching, .double_click => some .excited
  | .sleeping, .hover => some .idle
  | .sleeping, .click => some .curious
  | .sleeping, .wake_up => some .idle
  | .curious, .satisfied => some .idle
  | .curious, .scared => some .crouching
  | .curious, .excited => some .backflip_east
  | .alert, .calm => some .idle
  | .alert, .threat => some .crouching
  | .alert, .all_clear => some .idle
  | .excited, .calm => some .idle
  | .excited, .tired => some .sleeping
  | _, _ => none

/-- The JS string name of each state (the object keys of the state machine). -/
def State.name : State → String
  | .idle => "idle"
  | .backflip_east => "backflip_east"
  | .backflip_west => "backflip_west"
  | .crouching => "crouching"
  | .sleeping => "sleeping"
  | .curious => "curious"
  | .alert => "alert"
  | .excited => "excited"

/-- Own-key lookup on the state machine object for an arbitrary string:
some state when the string is one of the eight own keys of the object
literal, none otherwise.  The full JS lookup this.stateMachine[state] also
reaches inherited Object.prototype members; see stateMachineTruthy. -/
def parseState (s : String) : Option State :=
  if s = "idle" then some .idle
  else if s = "backflip_east" then some .backflip_east
  else if s = "backflip_west" then some .backflip_west
  else if s = "crouching" then some .crouching
  else if s = "sleeping" then some .sleeping
  else if s = "curious" then some .curious
  else if s = "alert" then some .alert
  else if s = "excited" then some .excited
  else none

/-- The destructuring const [animation, animDirection] = targetState.split(
the underscore) used at animation-controller.js lines 204 and 294: the
animation base name and the optional facing direction. -/
def animParts (s : State) : String × Option String :=
  let parts := (State.name s).splitOn "_"
  (parts.headD "", parts[1]?)

/-- CONFIG.GAME.AUDIO_VOLUME (config.js line 61). -/
def CONFIG_GAME_AUDIO_VOLUME : ℚ := 7/10

/-- Observable collaborator calls made by the animation controller. -/
inductive Ev where
  | setMasterVolume (v : ℚ)
  | playSound (nm : String) (vol : ℚ)
  | playAnimation (nm : String) (dir : Option String)
  | callbackRun (prev target : State) (t : Trigger)
  | callbackErrorLogged
deriving DecidableEq, Repr

/-- A transition record as pushed onto this.stateHistory
(animation-controller.js lines 184-189). -/
structure TransitionRec where
  fromState : State
  toState : State
  transition : Trigger
  timestamp : ℤ
deriving DecidableEq, Repr

/-- The mutable fields of AnimationController touched by the claims. -/
structure Controller where
  currentState : State
  previousState : State
  stateHistory : List TransitionRec
  lastClickTime : Option ℤ
deriving DecidableEq, Repr

/-- The controller right after the constructor runs
(animation-controller.js lines 3-10): both states idle, empty history,
lastClickTime not yet set. -/
def initCtrl : Controller :=
  { currentState := .idle, previousState := .idle, stateHistory := [],
    lastClickTime := none }

/-- Collaborator environment: truthiness of the AUDIO_SYSTEM and
CHARACTER_SYSTEM globals, which collaborator calls inside the entry/exit
side effects throw, and the registered transition callbacks per trigger
(each callback abstracted to whether it throws when invoked). -/
structure Env where
  audioAvailable : Bool
  characterAvailable : Bool
  exitThrows : State → Bool
  enterThrows : State → Bool
  callbacks : Trigger → List Bool

/-- An environment in which no collaborator call throws. -/
def quietEnv : Env :=
  { audioAvailable := true, characterAvailable := true,
    exitThrows := fun _ => false, enterThrows := fun _ => false,
    callbacks := fun _ => [] }

/-- this.maxHistory (animation-controller.js line 8). -/
def maxHistory : ℕ := 10

/-- stateHistory.push(record) followed by the capacity check
if (length > maxHistory) shift() (animation-controller.js lines 184-194). -/
def pushHistory (h : List TransitionRec) (r : TransitionRec) : List TransitionRec :=
  let h2 := h ++ [r]
  if h2.length > maxHistory then h2.tail else h2

/-- onStateEnter (animation-controller.js lines 215-234): entering sleeping
calls AUDIO_SYSTEM.setMasterVolume(0.3), entering alert calls
AUDIO_SYSTEM.playSound(sfx-glitch, 0.4); both guarded by the truthiness of
AUDIO_SYSTEM.  Returns the emitted events and whether the collaborator call
threw (a throwing call is modelled as emitting nothing). -/
def onStateEnter (env : Env) (s : State) : List Ev × Bool :=
  match s with
  | .sleeping =>
      if env.audioAvailable then
        if env.enterThrows .sleeping then ([], true)
        else ([Ev.setMasterVolume (3/10)], false)
      else ([], false)
  | .alert =>
      if env.audioAvailable then
        if env.enterThrows .alert then ([], true)
        else ([Ev.playSound "sfx-glitch" (4/10)], false)
      else ([], false)
  | _ => ([], false)

/-- onStateExit (animation-controller.js lines 236-248): exiting sleeping
calls AUDIO_SYSTEM.setMasterVolume(CONFIG.GAME.AUDIO_VOLUME), guarded by the
truthiness of AUDIO_SYSTEM. -/
def onStateExit (env : Env) (s : State) : List Ev × Bool :=
  match s with
  | .sleeping =>
      if env.audioAvailable then
        if env.exitThrows .sleeping then ([], true)
        else ([Ev.setMasterVolume CONFIG_GAME_AUDIO_VOLUME], false)
      else ([], false)
  | _ => ([], false)

/-- triggerTransitionCallbacks (animation-controller.js lines 271-280): each
registered callback for the trigger is invoked inside its own try/catch; a
throwing callback only logs an error and never stops the remaining
callbacks. -/
def triggerTransitionCallbacks (env : Env) (t : Trigger) (prev target : State) :
    List Ev :=
  (env.callbacks t).flatMap fun throws =>
    Ev.callbackRun prev target t :: (if throws then [Ev.callbackErrorLogged] else [])

/-- Result of one transitionToState call: the controller after whatever
mutations completed, the collaborator calls that were made, and
some b when the method returned b, none when an exception from an
un-caught collaborator call propagated out of the method. -/
structure TResult where
  ctrl : Controller
  events : List Ev
  returned : Option Bool
deriving DecidableEq, Repr

/-- transitionToState (animation-controller.js lines 161-213), on a
controller whose currentState holds one of the eight states (the
constructor starts at idle and every table target is a state, so the
unknown current-state branch at lines 164-167 does not fire; forceState
called with an inherited Object.prototype key can store a non-state string
in currentState, a situation modelled separately in ForceResult).
onExit and onEnter run
outside any try/catch, so a throw there propagates: an onExit throw aborts
before any mutation, an onEnter throw leaves the state update and history
append in place but skips the character animation call, the registered
callbacks and the return. -/
def transitionToState (env : Env) (c : Controller) (t : Trigger) (now : ℤ)
    (dir : Option String) : TResult :=
  match transitions c.currentState t with
  | none => { ctrl := c, events := [], returned := some false }
  | some target =>
    let ex := onStateExit env c.currentState
    if ex.2 then { ctrl := c, events := ex.1, returned := none }
    else
      let c1 : Controller :=
        { currentState := target,
          previousState := c.currentState,
          stateHistory := pushHistory c.stateHistory
            { fromState := c.currentState, toState := target,
              transition := t, timestamp := now },
          lastClickTime := c.lastClickTime }
      let en := onStateEnter env target
      if en.2 then { ctrl := c1, events := ex.1 ++ en.1, returned := none }
      else
        let animEvs :=
          if env.characterAvailable then
            [Ev.playAnimation (animParts target).1 ((animParts target).2 <|> dir)]
          else []
        let cbEvs := triggerTransitionCallbacks env t c1.previousState target
        { ctrl := c1, events := ex.1 ++ en.1 ++ animEvs ++ cbEvs,
          returned := some true }

/-- The property names the state machine object literal inherits from
Object.prototype.  A JS lookup obj[key] on the object literal falls back to
these when key is not an own key, and every one of them is truthy (a
function, or the prototype object itself for the proto accessor). -/
def protoKeys : List String :=
  ["constructor", "hasOwnProperty", "isPrototypeOf", "propertyIsEnumerable",
   "toLocaleString", "toString", "valueOf", "__proto__", "__defineGetter__",
   "__defineSetter__", "__lookupGetter__", "__lookupSetter__"]

/-- Truthiness of this.stateMachine[state] for an arbitrary string, per JS
property lookup semantics: true for the eight own keys (their values are
objects) and for the inherited Object.prototype member names, false for
every other string (the lookup yields undefined). -/
def stateMachineTruthy (s : String) : Bool :=
  (parseState s).isSome || decide (s ∈ protoKeys)

/-- The destructuring const [animation, direction] = state.split(the
underscore) at animation-controller.js line 294, on the raw string
argument. -/
def animPartsStr (s : String) : String × Option String :=
  let parts := s.splitOn "_"
  (parts.headD "", parts[1]?)

/-- State of the controller after a forceState call: the raw string written
to this.currentState (for a truthy non-state key such as toString the field
really does hold that string), the untouched remaining fields, the
collaborator calls, and the returned boolean. -/
structure ForceResult where
  currentStateStr : String
  previousState : State
  stateHistory : List TransitionRec
  lastClickTime : Option ℤ
  events : List Ev
  returned : Bool
deriving DecidableEq, Repr

/-- forceState (animation-controller.js lines 290-300): the guard is the JS
truthiness of this.stateMachine[state], so it passes for the eight state
names and also for inherited Object.prototype keys; when it passes,
this.currentState is overwritten with the raw string, the matching
animation is requested, and true is returned; otherwise nothing changes and
false is returned. -/
def forceState (env : Env) (c : Controller) (s : String) : ForceResult :=
  if stateMachineTruthy s then
    { currentStateStr := s,
      previousState := c.previousState,
      stateHistory := c.stateHistory,
      lastClickTime := c.lastClickTime,
      events :=
        (if env.characterAvailable then
           [Ev.playAnimation (animPartsStr s).1 (animPartsStr s).2]
         else []),
      returned := true }
  else
    { currentStateStr := State.name c.currentState,
      previousState := c.previousState,
      stateHistory := c.stateHistory,
      lastClickTime := c.lastClickTime,
      events := [],
      returned := false }

/-- Result of the document click listener: controller afterwards, events,
the triggers the handler fed into transitionToState, and whether an
exception propagated out of the handler. -/
structure ClickResult where
  ctrl : Controller
  events : List Ev
  emitted : List Trigger
  threw : Bool
deriving DecidableEq, Repr

/-- handleDoubleClick (animation-controller.js lines 250-262): the first
recorded click only stores its time; a later click within 300ms of the
stored time feeds double_click into the state machine; in either non-first
case the stored time is then refreshed (skipped if the transition threw,
since the assignment follows the transitionToState call). -/
def handleDoubleClick (env : Env) (c : Controller) (now : ℤ) : ClickResult :=
  match c.lastClickTime with
  | none =>
      { ctrl := { c with lastClickTime := some now }, events := [],
        emitted := [], threw := false }
  | some last =>
      if now - last < 300 then
        let r := transitionToState env c .double_click now none
        match r.returned with
        | none => { ctrl := r.ctrl, events := r.events,
                    emitted := [.double_click], threw := true }
        | some _ =>
            { ctrl := { r.ctrl with lastClickTime := some now },
              events := r.events, emitted := [.double_click], threw := false }
      else
        { ctrl := { c with lastClickTime := some now }, events := [],
          emitted := [], threw := false }

/-- The document click listener (animation-controller.js lines 123-132):
click feeds the click trigger only from idle or sleeping; from crouching it
runs the double-click detector; from any other state it does nothing. -/
def handleClickEvent (env : Env) (c : Controller) (now : ℤ) : ClickResult :=
  match c.currentState with
  | .idle =>
      let r := transitionToState env c .click now none
      { ctrl := r.ctrl, events := r.events, emitted := [.click],
        threw := r.returned.isNone }
  | .sleeping =>
      let r := transitionToState env c .click now none
      { ctrl := r.ctrl, events := r.events, emitted := [.click],
        threw := r.returned.isNone }
  | .crouching => handleDoubleClick env c now
  | _ => { ctrl := c, events := [], emitted := [], threw := false }

/-- Feed a sequence of (trigger, timestamp) pairs into transitionToState,
threading the controller and counting the calls that returned true
(the successful transitions). -/
def runTriggers (env : Env) (c : Controller) : List (Trigger × ℤ) → Controller × ℕ
  | [] => (c, 0)
  | (t, now) :: rest =>
      let r := transitionToState env c t now none
      let rec2 := runTriggers env r.ctrl rest
      (rec2.1, (if r.returned = some true then 1 else 0) + rec2.2)

/-- The four compass directions returned by Utils.getMouseDirection. -/
inductive Dir where
  | east
  | south
  | west
  | north
deriving DecidableEq, Repr

section Classifier

open Classical

/-- Math.atan2(y, x), in radians, on exact reals: the angle of the vector
(x, y), in the range from -pi exclusive to pi inclusive, with
atan2(0, 0) = 0 as in JS for non-negative zero arguments. -/
noncomputable def atan2 (y x : ℝ) : ℝ :=
  if 0 < x then Real.arctan (y / x)
  else if x < 0 then
    (if 0 ≤ y then Real.arctan (y / x) + Real.pi
     else Real.arctan (y / x) - Real.pi)
  else
    (if 0 < y then Real.pi / 2
     else if y < 0 then -(Real.pi / 2)
     else 0)

/-- The if-chain of Utils.getMouseDirection (utils.js lines 56-59) applied
to an angle in degrees. -/
noncomputable def classifyAngle (angle : ℝ) : Dir :=
  if -45 ≤ angle ∧ angle < 45 then .east
  else if 45 ≤ angle ∧ angle < 135 then .south
  else if 135 ≤ angle ∨ angle < -135 then .west
  else .north

/-- Utils.getMouseDirection (utils.js lines 51-60): the displacement vector
from (startX, startY) to (endX, endY), its atan2 angle converted to
degrees, classified by the quadrant if-chain. -/
noncomputable def getMouseDirection (startX startY endX endY : ℝ) : Dir :=
  let dx := endX - startX
  let dy := endY - startY
  let angle := atan2 dy dx * 180 / Real.pi
  classifyAngle angle

end Classifier

/-- A registered subsystem, abstracted to which optional hooks it exposes
(system.update / system.render truthy function checks at
pixel-scalling.js lines 245 and 258). -/
structure Subsys where
  hasUpdate : Bool
  hasRender : Bool
deriving DecidableEq, Repr

/-- Scheduler environment: the registry in Map iteration order (insertion
order, names unique), and which hook invocations throw, indexed by
subsystem name and tick number. -/
structure SchedEnv where
  systems : List (String × Subsys)
  updateThrows : String → ℕ → Bool
  renderThrows : String → ℕ → Bool

/-- Observable scheduler events: each hook invocation, and the error log
written by the catch block around a throwing hook. -/
inductive SEv where
  | updateCalled (nm : String) (dt : ℚ)
  | updateErrorLogged (nm : String)
  | renderCalled (nm : String)
  | renderErrorLogged (nm : String)
deriving DecidableEq, Repr

/-- The body of the systems.forEach loop in GameLoop.update
(pixel-scalling.js lines 244-252): a system with an update hook is invoked
with the fixed step inside its own try/catch, so a throwing hook only adds
an error log and the iteration continues. -/
def updateEventsFor (throws : String → Bool) (dt : ℚ) (p : String × Subsys) :
    List SEv :=
  if p.2.hasUpdate then
    SEv.updateCalled p.1 dt ::
      (if throws p.1 then [SEv.updateErrorLogged p.1] else [])
  else []

/-- GameLoop.update(deltaTime) (pixel-scalling.js lines 242-253): the loop
body applied over the registry in insertion order during tick k. -/
def updateSystemsEvents (env : SchedEnv) (k : ℕ) (dt : ℚ) : List SEv :=
  env.systems.flatMap (updateEventsFor (fun nm => env.updateThrows nm k) dt)

/-- The body of the systems.forEach loop in GameLoop.render
(pixel-scalling.js lines 257-265): same per-system try/catch structure for
the render hooks. -/
def renderEventsFor (throws : String → Bool) (p : String × Subsys) : List SEv :=
  if p.2.hasRender then
    SEv.renderCalled p.1 ::
      (if throws p.1 then [SEv.renderErrorLogged p.1] else [])
  else []

/-- GameLoop.render() (pixel-scalling.js lines 255-266). -/
def renderSystemsEvents (env : SchedEnv) (k : ℕ) : List SEv :=
  env.systems.flatMap (renderEventsFor (fun nm => env.renderThrows nm k))

/-- Recognizer for an update invocation of the named subsystem, any step
size. -/
def isUpdateCallFor (nm : String) : SEv → Bool
  | .updateCalled nm2 _ => nm2 == nm
  | _ => false

/-- The drain loop while (accumulator >= deltaTime) at pixel-scalling.js
lines 230-233, as structural recursion on a fuel bound: returns the final
accumulator, the events of the update calls, and the number of drained
steps.  The fuel never runs out when it exceeds accumulator / deltaTime
(see drainFuel_spec); the caller supplies such a bound. -/
def drainFuel (env : SchedEnv) (k : ℕ) : ℕ → ℚ → ℚ → ℚ × List SEv × ℕ
  | 0, acc, _ => (acc, [], 0)
  | fuel + 1, acc, dt =>
      if dt ≤ acc then
        let evs := updateSystemsEvents env k dt
        let r := drainFuel env k fuel (acc - dt) dt
        (r.1, evs ++ r.2.1, r.2.2 + 1)
      else (acc, [], 0)

/-- Scheduler state carried across ticks: this.accumulator and
this.deltaTime (= 1000 / targetFPS). -/
structure GameLoopState where
  accumulator : ℚ
  deltaTime : ℚ
deriving DecidableEq, Repr

/-- One gameLoop tick (pixel-scalling.js lines 214-240) fed with the
elapsed wall-clock time since the previous tick: clamp the elapsed time to
100ms, add it to the accumulator, drain the accumulator in fixed steps
calling update on each, then call render once.  The FPS bookkeeping
(updateFPS, frameCount) performs no subsystem calls and is omitted.
Returns the new state, the tick events, and the drained step count. -/
def gameLoopTick (env : SchedEnv) (k : ℕ) (st : GameLoopState) (elapsed : ℚ) :
    GameLoopState × List SEv × ℕ :=
  let d := min elapsed 100
  let acc1 := st.accumulator + d
  let fuel := (acc1 / st.deltaTime).floor.toNat + 1
  let r := drainFuel env k fuel acc1 st.deltaTime
  ({ accumulator := r.1, deltaTime := st.deltaTime },
   r.2.1 ++ renderSystemsEvents env k, r.2.2)

/-- Run a sequence of ticks with the given per-tick elapsed times, starting
at tick index k: final state, all events in order, total drained steps. -/
def runTicks (env : SchedEnv) : ℕ → GameLoopState → List ℚ →
    GameLoopState × List SEv × ℕ
  | _, st, [] => (st, [], 0)
  | k, st, e :: es =>
      let r := gameLoopTick env k st e
      let rest := runTicks env (k + 1) r.1 es
      (rest.1, r.2.1 ++ rest.2.1, r.2.2 + rest.2.2)

/-- All seventeen trigger tokens. -/
def allTriggers : List Trigger :=
  [.hover_east, .hover_west, .click, .timeout, .curious, .complete,
   .interrupt, .hover, .double_click, .wake_up, .satisfied, .scared,
   .excited, .calm, .threat, .all_clear, .tired]

/-- The direct successor states of s in the transition table. -/
def succs (s : State) : List State :=
  allTriggers.filterMap fun t => transitions s t

/-- n rounds of successor closure over a frontier list. -/
def reachList : ℕ → List State → List State
  | 0, acc => acc
  | n + 1, acc => reachList n ((acc ++ acc.flatMap succs).dedup)

/-- The states reachable from s by any number of transitions (eight rounds
saturate any reachable set over eight states). -/
def reachableFrom (s : State) : List State := reachList 8 [s]

/-- reachWithinB n s t: t is reachable from s in at most n transitions. -/
def reachWithinB : ℕ → State → State → Bool
  | 0, s, t => s == t
  | n + 1, s, t => s == t || (succs s).any fun m => reachWithinB n m t

/-- A sequence of eleven triggers, each present in the table at the state
where it arrives: click and complete alternate between idle and
crouching. -/
def elevenTriggers : List (Trigger × ℤ) :=
  [(.click, 1), (.complete, 2), (.click, 3), (.complete, 4), (.click, 5),
   (.complete, 6), (.click, 7), (.complete, 8), (.click, 9), (.complete, 10),
   (.click, 11)]

/-- An environment in which the collaborator call made when exiting the
sleeping state throws. -/
def exitThrowEnv : Env :=
  { audioAvailable := true, characterAvailable := true,
    exitThrows := fun s => s == .sleeping, enterThrows := fun _ => false,
    callbacks := fun _ => [] }

/-- A controller currently in the sleeping state. -/
def sleepCtrl : Controller :=
  { currentState := .sleeping, previousState := .idle, stateHistory := [],
    lastClickTime := none }

/-- An environment with two callbacks registered for the click trigger, the
first of which throws. -/
def cbThrowEnv : Env :=
  { audioAvailable := true, characterAvailable := true,
    exitThrows := fun _ => false, enterThrows := fun _ => false,
    callbacks := fun t => if t = .click then [true, false] else [] }

/-- A controller currently in the alert state. -/
def alertCtrl : Controller :=
  { currentState := .alert, previousState := .idle, stateHistory := [],
    lastClickTime := none }

/-- A controller in crouching with a click recorded at time 900. -/
def crouchCtrl : Controller :=
  { currentState := .crouching, previousState := .idle, stateHistory := [],
    lastClickTime := some 900 }

/-- A registry with one subsystem exposing both hooks and no faults. -/
def oneSysEnv : SchedEnv :=
  { systems := [("a", ⟨true, true⟩)],
    updateThrows := fun _ _ => false, renderThrows := fun _ _ => false }

/-- A registry with two subsystems where the update hook of subsystem a
throws on tick 0. -/
def twoSysEnv : SchedEnv :=
  { systems := [("a", ⟨true, true⟩), ("b", ⟨true, true⟩)],
    updateThrows := fun nm j => nm == "a" && j == 0,
    renderThrows := fun _ _ => false }

/-! Helper lemmas -/

lemma pushHistory_length_le (h : List TransitionRec) (r : TransitionRec)
    (hh : h.length ≤ maxHistory) : (pushHistory h r).length ≤ maxHistory := by
  simp only [pushHistory, maxHistory] at *
  split_ifs with h1
  · simp
    omega
  · simp at h1 ⊢
    omega

lemma transitionToState_history_le (env : Env) (c : Controller) (t : Trigger)
    (now : ℤ) (dir : Option String) (hh : c.stateHistory.length ≤ maxHistory) :
    (transitionToState env c t now dir).ctrl.stateHistory.length ≤ maxHistory := by
  unfold transitionToState
  cases htr : transitions c.currentState t with
  | none => simpa
  | some target =>
    simp only
    split_ifs <;> first
      | simpa
      | exact pushHistory_length_le _ _ hh

lemma runTriggers_history_le (env : Env) :
    ∀ (ts : List (Trigger × ℤ)) (c : Controller),
      c.stateHistory.length ≤ maxHistory →
      (runTriggers env c ts).1.stateHistory.length ≤ maxHistory := by
  intro ts
  induction ts with
  | nil => intro c hh; exact hh
  | cons p rest ih =>
      intro c hh
      exact ih _ (transitionToState_history_le env c p.1 p.2 none hh)

lemma triggerCallbacks_count (env : Env) (t : Trigger) (prev target : State) :
    (triggerTransitionCallbacks env t prev target).count
      (Ev.callbackRun prev target t) = (env.callbacks t).length := by
  unfold triggerTransitionCallbacks
  generalize env.callbacks t = l
  induction l with
  | nil => rfl
  | cons b bs ih =>
      cases b <;> simp [List.count_cons, List.count_append, ih]

lemma onStateExit_count_callbackRun (env : Env) (s : State) (p q : State)
    (t : Trigger) : (onStateExit env s).1.count (Ev.callbackRun p q t) = 0 := by
  unfold onStateExit
  cases s <;> (split_ifs <;> simp)

lemma onStateEnter_count_callbackRun (env : Env) (s : State) (p q : State)
    (t : Trigger) : (onStateEnter env s).1.count (Ev.callbackRun p q t) = 0 := by
  unfold onStateEnter
  cases s <;> simp <;> split_ifs <;> simp

lemma classifyAngle_east_iff (a : ℝ) :
    classifyAngle a = .east ↔ (-45 ≤ a ∧ a < 45) := by
  unfold classifyAngle
  split_ifs with h1 h2 h3
  · exact iff_of_true rfl h1
  · exact iff_of_false (by simp) h1
  · exact iff_of_false (by simp) h1
  · exact iff_of_false (by simp) h1

lemma classifyAngle_south_iff (a : ℝ) :
    classifyAngle a = .south ↔ (45 ≤ a ∧ a < 135) := by
  unfold classifyAngle
  split_ifs with h1 h2 h3
  · exact iff_of_false (by simp) (by rintro ⟨hx, -⟩; linarith [h1.2])
  · exact iff_of_true rfl h2
  · exact iff_of_false (by simp)
      (by rintro ⟨hx, hy⟩; rcases h3 with h | h <;> linarith)
  · exact iff_of_false (by simp) h2

lemma classifyAngle_west_iff (a : ℝ) :
    classifyAngle a = .west ↔ (135 ≤ a ∨ a < -135) := by
  unfold classifyAngle
  split_ifs with h1 h2 h3
  · exact iff_of_false (by simp)
      (by rintro (h | h) <;> linarith [h1.1, h1.2])
  · exact iff_of_false (by simp)
      (by rintro (h | h) <;> linarith [h2.1, h2.2])
  · exact iff_of_true rfl h3
  · exact iff_of_false (by simp) h3

lemma classifyAngle_north_iff (a : ℝ) :
    classifyAngle a = .north ↔ (-135 ≤ a ∧ a < -45) := by
  unfold classifyAngle
  split_ifs with h1 h2 h3
  · exact iff_of_false (by simp) (by rintro ⟨-, hy⟩; linarith [h1.1])
  · exact iff_of_false (by simp) (by rintro ⟨-, hy⟩; linarith [h2.1])
  · exact iff_of_false (by simp)
      (by rintro ⟨hx, hy⟩; rcases h3 with h | h <;> linarith)
  · refine iff_of_true rfl ?_
    push_neg at h1 h2 h3
    refine ⟨h3.2, ?_⟩
    by_contra hc
    push_neg at hc
    have := h2 (h1 hc)
    linarith [h3.1]

lemma atan2_of_pos_x (y x : ℝ) (hx : 0 < x) :
    atan2 y x = Real.arctan (y / x) := by
  unfold atan2
  rw [if_pos hx]

lemma atan2_zero_left_pos (y : ℝ) (hy : 0 < y) : atan2 y 0 = Real.pi / 2 := by
  unfold atan2
  rw [if_neg (lt_irrefl 0), if_neg (lt_irrefl 0), if_pos hy]

lemma atan2_zero_zero : atan2 0 0 = 0 := by
  unfold atan2
  rw [if_neg (lt_irrefl 0), if_neg (lt_irrefl 0), if_neg (lt_irrefl 0),
    if_neg (lt_irrefl 0)]

lemma getMouseDirection_self (x y : ℝ) : getMouseDirection x y x y = .east := by
  unfold getMouseDirection
  simp only [sub_self, atan2_zero_zero, zero_mul, zero_div]
  exact (classifyAngle_east_iff 0).mpr (by norm_num)

lemma getMouseDirection_east_example :
    getMouseDirection 100 100 200 100 = .east := by
  unfold getMouseDirection
  simp only [show (100:ℝ) - 100 = 0 by norm_num,
    show (200:ℝ) - 100 = 100 by norm_num]
  rw [atan2_of_pos_x 0 100 (by norm_num)]
  simp only [zero_div, Real.arctan_zero, zero_mul]
  exact (classifyAngle_east_iff 0).mpr (by norm_num)

lemma getMouseDirection_south_example :
    getMouseDirection 100 100 100 200 = .south := by
  unfold getMouseDirection
  simp only [show (100:ℝ) - 100 = 0 by norm_num,
    show (200:ℝ) - 100 = 100 by norm_num]
  rw [atan2_zero_left_pos 100 (by norm_num)]
  have h90 : Real.pi / 2 * 180 / Real.pi = 90 := by
    have hpi : Real.pi ≠ 0 := Real.pi_ne_zero
    field_simp
    ring
  rw [h90]
  exact (classifyAngle_south_iff 90).mpr (by norm_num)

lemma updateEventsFor_countP_zero (th : String → Bool) (dt : ℚ) (nm : String) :
    ∀ l : List (String × Subsys), nm ∉ l.map Prod.fst →
      (l.flatMap (updateEventsFor th dt)).countP (isUpdateCallFor nm) = 0 := by
  intro l
  induction l with
  | nil => intro _; rfl
  | cons p rest ih =>
      intro hnm
      simp only [List.map_cons, List.mem_cons, not_or] at hnm
      rw [List.flatMap_cons, List.countP_append, ih hnm.2]
      unfold updateEventsFor
      split_ifs <;>
        simp [List.countP_cons, isUpdateCallFor, Ne.symm hnm.1, hnm.1]

lemma updateEventsFor_countP_one (th : String → Bool) (dt : ℚ) (nm : String)
    (sys : Subsys) :
    ∀ l : List (String × Subsys), (l.map Prod.fst).Nodup →
      (nm, sys) ∈ l → sys.hasUpdate = true →
      (l.flatMap (updateEventsFor th dt)).countP (isUpdateCallFor nm) = 1 := by
  intro l
  induction l with
  | nil => intro _ hmem; simp at hmem
  | cons p rest ih =>
      intro hnd hmem hup
      simp only [List.map_cons, List.nodup_cons] at hnd
      rw [List.flatMap_cons, List.countP_append]
      rcases List.mem_cons.mp hmem with heq | hmem2
      · have hrest : nm ∉ rest.map Prod.fst := by
          rw [← heq] at hnd
          exact hnd.1
        rw [updateEventsFor_countP_zero th dt nm rest hrest]
        unfold updateEventsFor
        rw [← heq]
        simp only [hup, if_true]
        split_ifs <;> simp [List.countP_cons, isUpdateCallFor]
      · have hne : p.1 ≠ nm := by
          intro hc
          exact hnd.1 (hc ▸ List.mem_map_of_mem Prod.fst hmem2)
        rw [ih hnd.2 hmem2 hup]
        unfold updateEventsFor
        split_ifs <;> simp [List.countP_cons, isUpdateCallFor, hne]

lemma updateEventsFor_mem_dt (th : String → Bool) (dt : ℚ) (nm : String)
    (d : ℚ) :
    ∀ l : List (String × Subsys),
      SEv.updateCalled nm d ∈ l.flatMap (updateEventsFor th dt) → d = dt := by
  intro l hmem
  rw [List.mem_flatMap] at hmem
  obtain ⟨p, -, hm⟩ := hmem
  unfold updateEventsFor at hm
  split_ifs at hm <;> simp at hm <;> tauto

lemma updateEventsFor_mem (th : String → Bool) (dt : ℚ) (nm : String)
    (sys : Subsys) :
    ∀ l : List (String × Subsys), (nm, sys) ∈ l → sys.hasUpdate = true →
      SEv.updateCalled nm dt ∈ l.flatMap (updateEventsFor th dt) := by
  intro l hmem hup
  rw [List.mem_flatMap]
  refine ⟨(nm, sys), hmem, ?_⟩
  unfold updateEventsFor
  simp [hup]

lemma updateEventsFor_mem_err (th : String → Bool) (dt : ℚ) (nm : String)
    (sys : Subsys) :
    ∀ l : List (String × Subsys), (nm, sys) ∈ l → sys.hasUpdate = true →
      th nm = true →
      SEv.updateErrorLogged nm ∈ l.flatMap (updateEventsFor th dt) := by
  intro l hmem hup hth
  rw [List.mem_flatMap]
  refine ⟨(nm, sys), hmem, ?_⟩
  unfold updateEventsFor
  simp [hup, hth]

lemma renderEventsFor_mem (th : String → Bool) (nm : String) (sys : Subsys) :
    ∀ l : List (String × Subsys), (nm, sys) ∈ l → sys.hasRender = true →
      SEv.renderCalled nm ∈ l.flatMap (renderEventsFor th) := by
  intro l hmem hrn
  rw [List.mem_flatMap]
  refine ⟨(nm, sys), hmem, ?_⟩
  unfold renderEventsFor
  simp [hrn]

lemma renderEventsFor_mem_err (th : String → Bool) (nm : String)
    (sys : Subsys) :
    ∀ l : List (String × Subsys), (nm, sys) ∈ l → sys.hasRender = true →
      th nm = true →
      SEv.renderErrorLogged nm ∈ l.flatMap (renderEventsFor th) := by
  intro l hmem hrn hth
  rw [List.mem_flatMap]
  refine ⟨(nm, sys), hmem, ?_⟩
  unfold renderEventsFor
  simp [hrn, hth]

lemma renderEventsFor_countP_isUpdate (th : String → Bool) (nm : String) :
    ∀ l : List (String × Subsys),
      (l.flatMap (renderEventsFor th)).countP (isUpdateCallFor nm) = 0 := by
  intro l
  rw [List.countP_eq_zero]
  intro e he
  rw [List.mem_flatMap] at he
  obtain ⟨p, -, hm⟩ := he
  unfold renderEventsFor at hm
  split_ifs at hm <;> simp at hm
  · rcases hm with hm | hm <;> simp [hm, isUpdateCallFor]
  · simp [hm, isUpdateCallFor]

lemma renderEventsFor_no_updateCalled (th : String → Bool) (nm : String)
    (d : ℚ) :
    ∀ l : List (String × Subsys),
      SEv.updateCalled nm d ∉ l.flatMap (renderEventsFor th) := by
  intro l hmem
  rw [List.mem_flatMap] at hmem
  obtain ⟨p, -, hm⟩ := hmem
  unfold renderEventsFor at hm
  split_ifs at hm <;> simp at hm

lemma drainFuel_spec (env : SchedEnv) (k : ℕ) :
    ∀ (fuel : ℕ) (acc dt : ℚ), 0 < dt → 0 ≤ acc → acc / dt < (fuel : ℚ) →
      (drainFuel env k fuel acc dt).1 =
        acc - (drainFuel env k fuel acc dt).2.2 * dt ∧
      0 ≤ (drainFuel env k fuel acc dt).1 ∧
      (drainFuel env k fuel acc dt).1 < dt := by
  intro fuel
  induction fuel with
  | zero =>
      intro acc dt hdt hacc hfuel
      exfalso
      have h0 : (0:ℚ) ≤ acc / dt := div_nonneg hacc hdt.le
      simp only [Nat.cast_zero] at hfuel
      linarith
  | succ m ih =>
      intro acc dt hdt hacc hfuel
      simp only [drainFuel]
      split_ifs with hle
      · have hacc2 : 0 ≤ acc - dt := sub_nonneg.mpr hle
        have hfuel2 : (acc - dt) / dt < (m : ℚ) := by
          rw [sub_div, div_self (ne_of_gt hdt)]
          push_cast at hfuel
          linarith
        obtain ⟨h1, h2, h3⟩ := ih (acc - dt) dt hdt hacc2 hfuel2
        refine ⟨?_, h2, h3⟩
        simp only
        rw [h1]
        push_cast
        ring
      · push_neg at hle
        exact ⟨by simp, hacc, hle⟩

lemma drainFuel_countP (env : SchedEnv) (k : ℕ) (p : SEv → Bool) :
    ∀ (fuel : ℕ) (acc dt : ℚ),
      (drainFuel env k fuel acc dt).2.1.countP p =
        (drainFuel env k fuel acc dt).2.2 *
          (updateSystemsEvents env k dt).countP p := by
  intro fuel
  induction fuel with
  | zero => intro acc dt; simp [drainFuel]
  | succ m ih =>
      intro acc dt
      simp only [drainFuel]
      split_ifs with hle
      · simp only [List.countP_append, ih (acc - dt) dt]
        ring
      · simp

lemma drainFuel_mem_dt (env : SchedEnv) (k : ℕ) (nm : String) (d : ℚ) :
    ∀ (fuel : ℕ) (acc dt : ℚ),
      SEv.updateCalled nm d ∈ (drainFuel env k fuel acc dt).2.1 → d = dt := by
  intro fuel
  induction fuel with
  | zero => intro acc dt h; simp [drainFuel] at h
  | succ m ih =>
      intro acc dt h
      simp only [drainFuel] at h
      split_ifs at h with hle
      · simp only [List.mem_append] at h
        rcases h with h | h
        · exact updateEventsFor_mem_dt _ dt nm d env.systems h
        · exact ih (acc - dt) dt h
      · simp at h

lemma drainFuel_mem_head (env : SchedEnv) (k m : ℕ) (acc dt : ℚ)
    (hle : dt ≤ acc) (ev : SEv) (hev : ev ∈ updateSystemsEvents env k dt) :
    ev ∈ (drainFuel env k (m + 1) acc dt).2.1 := by
  simp only [drainFuel, if_pos hle]
  exact List.mem_append_left _ hev

lemma fuel_adequate (acc dt : ℚ) (hdt : 0 < dt) (hacc : 0 ≤ acc) :
    acc / dt < ((acc / dt).floor.toNat + 1 : ℕ) := by
  have h0 : (0:ℚ) ≤ acc / dt := div_nonneg hacc hdt.le
  have hfl : (0:ℤ) ≤ (acc / dt).floor := Int.floor_nonneg.mpr h0
  have hlt := Int.lt_floor_add_one (acc / dt)
  have h2 : ((acc / dt).floor.toNat : ℚ) = ((acc / dt).floor : ℚ) := by
    exact_mod_cast congrArg (fun z : ℤ => (z : ℚ)) (Int.toNat_of_nonneg hfl)
  push_cast
  rw [h2]
  exact hlt

lemma gameLoopTick_spec (env : SchedEnv) (k : ℕ) (acc dt e : ℚ)
    (hdt : 0 < dt) (hacc : 0 ≤ acc) (he0 : 0 ≤ e) (he1 : e ≤ 100) :
    (gameLoopTick env k ⟨acc, dt⟩ e).1.deltaTime = dt ∧
    (gameLoopTick env k ⟨acc, dt⟩ e).1.accumulator =
      acc + e - (gameLoopTick env k ⟨acc, dt⟩ e).2.2 * dt ∧
    0 ≤ (gameLoopTick env k ⟨acc, dt⟩ e).1.accumulator ∧
    (gameLoopTick env k ⟨acc, dt⟩ e).1.accumulator < dt ∧
    (∀ nm d, SEv.updateCalled nm d ∈ (gameLoopTick env k ⟨acc, dt⟩ e).2.1 →
       d = dt) ∧
    (∀ nm sys, (env.systems.map Prod.fst).Nodup → (nm, sys) ∈ env.systems →
       sys.hasUpdate = true →
       (gameLoopTick env k ⟨acc, dt⟩ e).2.1.countP (isUpdateCallFor nm) =
         (gameLoopTick env k ⟨acc, dt⟩ e).2.2) := by
  have hmin : min e (100:ℚ) = e := min_eq_left he1
  have hacc1 : 0 ≤ acc + min e 100 := by rw [hmin]; linarith
  have hfa := fuel_adequate (acc + min e 100) dt hdt hacc1
  have hspec := drainFuel_spec env k (((acc + min e 100) / dt).floor.toNat + 1)
    (acc + min e 100) dt hdt hacc1 hfa
  simp only [gameLoopTick]
  refine ⟨by trivial, ?_, hspec.2.1, hspec.2.2, ?_, ?_⟩
  · rw [hspec.1, hmin]
  · intro nm d hd
    rcases List.mem_append.mp hd with hd | hd
    · exact drainFuel_mem_dt env k nm d _ _ _ hd
    · refine absurd hd ?_
      unfold renderSystemsEvents
      exact renderEventsFor_no_updateCalled _ nm d env.systems
  · intro nm sys hnd hmem hup
    rw [List.countP_append, drainFuel_countP]
    unfold renderSystemsEvents updateSystemsEvents
    rw [renderEventsFor_countP_isUpdate _ nm env.systems,
      updateEventsFor_countP_one _ dt nm sys env.systems hnd hmem hup]
    simp

lemma runTicks_spec (env : SchedEnv) (dt : ℚ) (hdt : 0 < dt) :
    ∀ (ds : List ℚ) (k : ℕ) (acc : ℚ), 0 ≤ acc → acc < dt →
      (∀ d ∈ ds, 0 ≤ d ∧ d ≤ 100) →
      (runTicks env k ⟨acc, dt⟩ ds).1.deltaTime = dt ∧
      (runTicks env k ⟨acc, dt⟩ ds).1.accumulator =
        acc + ds.sum - (runTicks env k ⟨acc, dt⟩ ds).2.2 * dt ∧
      0 ≤ (runTicks env k ⟨acc, dt⟩ ds).1.accumulator ∧
      (runTicks env k ⟨acc, dt⟩ ds).1.accumulator < dt ∧
      (∀ nm d, SEv.updateCalled nm d ∈ (runTicks env k ⟨acc, dt⟩ ds).2.1 →
         d = dt) ∧
      (∀ nm sys, (env.systems.map Prod.fst).Nodup →
         (nm, sys) ∈ env.systems → sys.hasUpdate = true →
         (runTicks env k ⟨acc, dt⟩ ds).2.1.countP (isUpdateCallFor nm) =
           (runTicks env k ⟨acc, dt⟩ ds).2.2) := by
  intro ds
  induction ds with
  | nil =>
      intro k acc hacc hlt hbds
      refine ⟨rfl, by simp [runTicks], by simpa [runTicks], by simpa [runTicks],
        ?_, ?_⟩
      · intro nm d hd; simp [runTicks] at hd
      · intro nm sys _ _ _; simp [runTicks]
  | cons e es ih =>
      intro k acc hacc hlt hbds
      have hbe := hbds e (List.mem_cons_self e es)
      have hbes : ∀ d ∈ es, 0 ≤ d ∧ d ≤ 100 :=
        fun d hd => hbds d (List.mem_cons_of_mem e hd)
      obtain ⟨t1d, t1a, t1n, t1l, t1m, t1c⟩ :=
        gameLoopTick_spec env k acc dt e hdt hacc hbe.1 hbe.2
      have hstate : (gameLoopTick env k ⟨acc, dt⟩ e).1 =
          ⟨(gameLoopTick env k ⟨acc, dt⟩ e).1.accumulator, dt⟩ := by
        cases hg : (gameLoopTick env k ⟨acc, dt⟩ e).1 with
        | mk a d2 =>
            have := t1d
            rw [hg] at this
            simp at this
            rw [this]
      obtain ⟨rd, ra, rn, rl, rm, rc⟩ :=
        ih (k + 1) (gameLoopTick env k ⟨acc, dt⟩ e).1.accumulator t1n t1l hbes
      simp only [runTicks]
      rw [hstate]
      refine ⟨rd, ?_, rn, rl, ?_, ?_⟩
      · rw [ra, t1a, List.sum_cons]
        push_cast
        ring
      · intro nm d hd
        rcases List.mem_append.mp hd with hd | hd
        · exact t1m nm d hd
        · exact rm nm d hd
      · intro nm sys hnd hmem hup
        rw [List.countP_append, t1c nm sys hnd hmem hup,
          rc nm sys hnd hmem hup]

lemma gameLoopTick_acc_nonneg (env : SchedEnv) (k : ℕ) (acc dt e : ℚ)
    (hdt : 0 < dt) (hacc1 : 0 ≤ acc + min e 100) :
    0 ≤ (gameLoopTick env k ⟨acc, dt⟩ e).1.accumulator ∧
    (gameLoopTick env k ⟨acc, dt⟩ e).1.deltaTime = dt := by
  have hfa := fuel_adequate (acc + min e 100) dt hdt hacc1
  have hspec := drainFuel_spec env k (((acc + min e 100) / dt).floor.toNat + 1)
    (acc + min e 100) dt hdt hacc1 hfa
  simp only [gameLoopTick]
  exact ⟨hspec.2.1, by trivial⟩

lemma gameLoopTick_mem_update (env : SchedEnv) (k : ℕ) (st : GameLoopState)
    (e : ℚ) (hacc : 0 ≤ st.accumulator) (hstep : st.deltaTime ≤ min e 100)
    (ev : SEv) (hev : ev ∈ updateSystemsEvents env k st.deltaTime) :
    ev ∈ (gameLoopTick env k st e).2.1 := by
  have hle : st.deltaTime ≤ st.accumulator + min e 100 :=
    le_trans hstep (le_add_of_nonneg_left hacc)
  simp only [gameLoopTick]
  refine List.mem_append_left _ ?_
  exact drainFuel_mem_head env k _ _ _ hle ev hev

lemma gameLoopTick_mem_render (env : SchedEnv) (k : ℕ) (st : GameLoopState)
    (e : ℚ) (ev : SEv) (hev : ev ∈ renderSystemsEvents env k) :
    ev ∈ (gameLoopTick env k st e).2.1 := by
  simp only [gameLoopTick]
  exact List.mem_append_right _ hev

/-! Claim theorems, witnesses and counterexamples -/

/-- Claim C1: for every state s and trigger t absent from the transition
table sub-mapping of s, calling transitionToState while the current state
is s returns false and performs no mutation: currentState, previousState
and the transition history are all unchanged. -/
theorem c1_unknown_trigger_no_mutation (env : Env) (c : Controller)
    (t : Trigger) (now : ℤ) (dir : Option String)
    (h : transitions c.currentState t = none) :
    transitionToState env c t now dir =
      { ctrl := c, events := [], returned := some false } := by
  unfold transitionToState
  rw [h]

theorem c1_unknown_trigger_no_mutation_witness :
    transitions initCtrl.currentState Trigger.complete = none ∧
    transitionToState quietEnv initCtrl .complete 0 none =
      { ctrl := initCtrl, events := [], returned := some false } :=
  ⟨by decide,
   c1_unknown_trigger_no_mutation quietEnv initCtrl .complete 0 none (by decide)⟩

/-- Claim C8: every state reachable from idle has a transition path back to
idle, and idle is reachable from every state in at most 2 hops: no
reachable state is permanently locked in. -/
theorem c8_no_lock_in :
    (∀ s : State, s ∈ reachableFrom .idle → reachWithinB 8 s .idle = true) ∧
    (∀ s : State, reachWithinB 2 s .idle = true) := by
  exact ⟨by decide, by decide⟩

theorem c8_no_lock_in_witness :
    State.crouching ∈ reachableFrom .idle ∧
    reachWithinB 8 State.crouching .idle = true :=
  ⟨by decide, c8_no_lock_in.1 .crouching (by decide)⟩

/-- Claim C3, counterexample: after eleven successful transitions the
history holds only ten records, so the eleven most recent transitions
cannot all remain. -/
theorem c3_counterexample_only_ten_remain :
    (runTriggers quietEnv initCtrl elevenTriggers).2 = 11 ∧
    (runTriggers quietEnv initCtrl elevenTriggers).1.stateHistory.length = 10 := by
  decide

/-- Claim C3, amended: the history never exceeds 10 records; a record is
appended at the end, and when the history is at capacity the oldest record
is evicted first; after 11 successful transitions the first transition
record is absent and the 10 most recent remain in order. -/
theorem c3_amended_history_bounded :
    (∀ (env : Env) (c : Controller) (ts : List (Trigger × ℤ)),
        c.stateHistory.length ≤ maxHistory →
        (runTriggers env c ts).1.stateHistory.length ≤ maxHistory) ∧
    (∀ (h : List TransitionRec) (r : TransitionRec),
        h.length ≤ 9 → pushHistory h r = h ++ [r]) ∧
    (∀ (h : List TransitionRec) (r : TransitionRec),
        h.length = 10 → pushHistory h r = h.tail ++ [r]) ∧
    ((runTriggers quietEnv initCtrl elevenTriggers).2 = 11 ∧
     (runTriggers quietEnv initCtrl elevenTriggers).1.stateHistory =
       [⟨.crouching, .idle, .complete, 2⟩, ⟨.idle, .crouching, .click, 3⟩,
        ⟨.crouching, .idle, .complete, 4⟩, ⟨.idle, .crouching, .click, 5⟩,
        ⟨.crouching, .idle, .complete, 6⟩, ⟨.idle, .crouching, .click, 7⟩,
        ⟨.crouching, .idle, .complete, 8⟩, ⟨.idle, .crouching, .click, 9⟩,
        ⟨.crouching, .idle, .complete, 10⟩, ⟨.idle, .crouching, .click, 11⟩]) := by
  refine ⟨fun env c ts hh => runTriggers_history_le env ts c hh, ?_, ?_, by decide⟩
  · intro h r hh
    simp only [pushHistory, maxHistory]
    rw [if_neg]
    simp
    omega
  · intro h r hh
    simp only [pushHistory, maxHistory]
    rw [if_pos]
    · cases h with
      | nil => simp at hh
      | cons a as => rfl
    · simp
      omega

theorem c3_amended_history_bounded_witness :
    initCtrl.stateHistory.length ≤ maxHistory ∧
    (runTriggers quietEnv initCtrl elevenTriggers).1.stateHistory.length ≤
      maxHistory :=
  ⟨by decide, c3_amended_history_bounded.1 quietEnv initCtrl elevenTriggers (by decide)⟩

/-- Claim C5, counterexample: wake_up is present in the table for sleeping,
yet when the exit side effect of sleeping throws, the transition does not
complete: the exception propagates (no true return), the state stays
sleeping and no history record is appended. -/
theorem c5_counterexample_exit_throw_aborts :
    transitions sleepCtrl.currentState .wake_up = some .idle ∧
    transitionToState exitThrowEnv sleepCtrl .wake_up 5 none =
      { ctrl := sleepCtrl, events := [], returned := none } := by
  decide

/-- Claim C5, amended: only the registered transition callbacks are
individually isolated: when neither the exit nor the entry side effect
throws, a throwing callback is logged and every registered callback is
still invoked, the state update and history append complete and the method
returns true.  An exit side effect that throws aborts the transition before
any mutation, and an entry side effect that throws leaves the state update
and history append in place but skips the callbacks and the true return. -/
theorem c5_amended_callback_isolation (env : Env) (c : Controller)
    (t : Trigger) (target : State) (now : ℤ) (dir : Option String)
    (htr : transitions c.currentState t = some target) :
    ((onStateExit env c.currentState).2 = false →
     (onStateEnter env target).2 = false →
       (transitionToState env c t now dir).returned = some true ∧
       (transitionToState env c t now dir).ctrl.currentState = target ∧
       (transitionToState env c t now dir).ctrl.previousState = c.currentState ∧
       (transitionToState env c t now dir).ctrl.stateHistory =
         pushHistory c.stateHistory ⟨c.currentState, target, t, now⟩ ∧
       (transitionToState env c t now dir).events.count
         (Ev.callbackRun c.currentState target t) = (env.callbacks t).length) ∧
    ((onStateExit env c.currentState).2 = true →
       transitionToState env c t now dir =
         { ctrl := c, events := (onStateExit env c.currentState).1,
           returned := none }) ∧
    ((onStateExit env c.currentState).2 = false →
     (onStateEnter env target).2 = true →
       (transitionToState env c t now dir).returned = none ∧
       (transitionToState env c t now dir).ctrl.currentState = target ∧
       (transitionToState env c t now dir).ctrl.stateHistory =
         pushHistory c.stateHistory ⟨c.currentState, target, t, now⟩ ∧
       (transitionToState env c t now dir).events.count
         (Ev.callbackRun c.currentState target t) = 0) := by
  refine ⟨?_, ?_, ?_⟩
  · intro hex hen
    unfold transitionToState
    rw [htr]
    simp only [hex, hen, Bool.false_eq_true, if_false]
    refine ⟨trivial, trivial, trivial, trivial, ?_⟩
    simp only [List.count_append, triggerCallbacks_count,
      onStateExit_count_callbackRun, onStateEnter_count_callbackRun]
    split_ifs <;> simp
  · intro hex
    unfold transitionToState
    rw [htr]
    simp only [hex, if_true]
  · intro hex hen
    unfold transitionToState
    rw [htr]
    simp only [hex, hen, Bool.false_eq_true, if_false, if_true]
    exact ⟨trivial, trivial, trivial, by
      simp only [List.count_append, onStateExit_count_callbackRun,
        onStateEnter_count_callbackRun]⟩

theorem c5_amended_callback_isolation_witness :
    transitions initCtrl.currentState .click = some .crouching ∧
    (onStateExit cbThrowEnv initCtrl.currentState).2 = false ∧
    (onStateEnter cbThrowEnv .crouching).2 = false ∧
    ((transitionToState cbThrowEnv initCtrl .click 1 none).returned = some true ∧
     (transitionToState cbThrowEnv initCtrl .click 1 none).ctrl.currentState =
       .crouching ∧
     (transitionToState cbThrowEnv initCtrl .click 1 none).ctrl.previousState =
       initCtrl.currentState ∧
     (transitionToState cbThrowEnv initCtrl .click 1 none).ctrl.stateHistory =
       pushHistory initCtrl.stateHistory
         ⟨initCtrl.currentState, .crouching, .click, 1⟩ ∧
     (transitionToState cbThrowEnv initCtrl .click 1 none).events.count
       (Ev.callbackRun initCtrl.currentState .crouching .click) =
       (cbThrowEnv.callbacks .click).length) :=
  ⟨by decide, by decide, by decide,
   (c5_amended_callback_isolation cbThrowEnv initCtrl .click .crouching 1 none
     (by decide)).1 (by decide) (by decide)⟩

/-- Claim C4, counterexample: a click arriving while the current state is
alert feeds nothing into the state machine, so clicks do not emit the click
trigger unconditionally. -/
theorem c4_counterexample_click_swallowed :
    (handleClickEvent quietEnv alertCtrl 1000).emitted = [] ∧
    Trigger.click ∉ (handleClickEvent quietEnv alertCtrl 1000).emitted := by
  decide

/-- Claim C4, amended: the click listener feeds the click trigger into the
state machine only when the current state is idle or sleeping; when the
current state is crouching the click feeds the double-click detector, which
emits double_click exactly when a previous click time is recorded and this
click is within 300ms of it (the first recorded click only stores its
time); in every other state a click feeds nothing. -/
theorem c4_amended_click_emission (env : Env) (c : Controller) (now : ℤ) :
    ((c.currentState = .idle ∨ c.currentState = .sleeping) →
       (handleClickEvent env c now).emitted = [.click]) ∧
    (c.currentState = .crouching →
       ((c.lastClickTime = none →
           (handleClickEvent env c now).emitted = [] ∧
           (handleClickEvent env c now).ctrl = { c with lastClickTime := some now }) ∧
        (∀ last, c.lastClickTime = some last →
           ((now - last < 300 →
               (handleClickEvent env c now).emitted = [.double_click]) ∧
            (¬ now - last < 300 →
               (handleClickEvent env c now).emitted = [] ∧
               (handleClickEvent env c now).ctrl =
                 { c with lastClickTime := some now }))))) ∧
    ((c.currentState ≠ .idle ∧ c.currentState ≠ .sleeping ∧
        c.currentState ≠ .crouching) →
       handleClickEvent env c now =
         { ctrl := c, events := [], emitted := [], threw := false }) := by
  refine ⟨?_, ?_, ?_⟩
  · rintro (h | h) <;> simp [handleClickEvent, h]
  · intro h
    constructor
    · intro hlast
      simp [handleClickEvent, handleDoubleClick, h, hlast]
    · intro last hlast
      constructor
      · intro hwin
        simp only [handleClickEvent, handleDoubleClick, h, hlast, if_pos hwin]
        cases (transitionToState env c .double_click now none).returned <;> simp
      · intro hwin
        simp [handleClickEvent, handleDoubleClick, h, hlast, if_neg hwin]
  · rintro ⟨h1, h2, h3⟩
    cases hc : c.currentState <;> simp_all [handleClickEvent]

theorem c4_amended_click_emission_witness :
    (handleClickEvent quietEnv initCtrl 0).emitted = [.click] ∧
    (handleClickEvent quietEnv crouchCtrl 1000).emitted = [.double_click] :=
  ⟨(c4_amended_click_emission quietEnv initCtrl 0).1 (Or.inl rfl),
   (((c4_amended_click_emission quietEnv crouchCtrl 1000).2.1 rfl).2 900
     rfl).1 (by decide)⟩

/-- Claim C9: with the audio collaborator available, every transition that
enters sleeping sets the master volume to the fixed reduced level 0.3
(lower than the configured default), every transition that exits sleeping
restores CONFIG.GAME.AUDIO_VOLUME, and every transition that enters alert
plays the sfx-glitch warning cue. -/
theorem c9_audio_side_effects (env : Env) (c : Controller) (t : Trigger)
    (now : ℤ) (dir : Option String) (haudio : env.audioAvailable = true) :
    (3/10 : ℚ) < CONFIG_GAME_AUDIO_VOLUME ∧
    (transitions c.currentState t = some .sleeping →
       (onStateExit env c.currentState).2 = false →
       env.enterThrows .sleeping = false →
       Ev.setMasterVolume (3/10) ∈ (transitionToState env c t now dir).events) ∧
    (∀ target, c.currentState = .sleeping →
       transitions .sleeping t = some target →
       env.exitThrows .sleeping = false →
       Ev.setMasterVolume CONFIG_GAME_AUDIO_VOLUME ∈
         (transitionToState env c t now dir).events) ∧
    (transitions c.currentState t = some .alert →
       (onStateExit env c.currentState).2 = false →
       env.enterThrows .alert = false →
       Ev.playSound "sfx-glitch" (4/10) ∈
         (transitionToState env c t now dir).events) := by
  refine ⟨by norm_num [CONFIG_GAME_AUDIO_VOLUME], ?_, ?_, ?_⟩
  · intro htr hex hen
    unfold transitionToState
    rw [htr]
    simp only [hex, Bool.false_eq_true, if_false]
    simp [onStateEnter, haudio, hen]
  · intro target hcur htr hex
    unfold transitionToState
    rw [hcur, htr]
    simp [onStateExit, haudio, hex, hcur]
    split_ifs <;> simp
  · intro htr hex hen
    unfold transitionToState
    rw [htr]
    simp only [hex, Bool.false_eq_true, if_false]
    simp [onStateEnter, haudio, hen]

theorem c9_audio_side_effects_witness :
    quietEnv.audioAvailable = true ∧
    (Ev.setMasterVolume (3/10) ∈
       (transitionToState quietEnv initCtrl .timeout 0 none).events) ∧
    (Ev.setMasterVolume CONFIG_GAME_AUDIO_VOLUME ∈
       (transitionToState quietEnv sleepCtrl .wake_up 1 none).events) ∧
    (Ev.playSound "sfx-glitch" (4/10) ∈
       (transitionToState quietEnv
         { currentState := .crouching, previousState := .idle,
           stateHistory := [], lastClickTime := none } .hover 2 none).events) :=
  ⟨rfl,
   (c9_audio_side_effects quietEnv initCtrl .timeout 0 none rfl).2.1
     (by decide) (by decide) rfl,
   (c9_audio_side_effects quietEnv sleepCtrl .wake_up 1 none rfl).2.2.1 .idle
     rfl (by decide) rfl,
   (c9_audio_side_effects quietEnv
     { currentState := .crouching, previousState := .idle,
       stateHistory := [], lastClickTime := none } .hover 2 none rfl).2.2.2
     (by decide) (by decide) rfl⟩

/-- Claim C10, counterexample: toString is not one of the eight state
names, yet the JS lookup this.stateMachine[toString] finds the inherited
truthy Object.prototype method, so forceState returns true and overwrites
currentState with the string toString, instead of returning false and
changing nothing as the claim asserts for unrecognized strings. -/
theorem c10_counterexample_proto_key :
    parseState "toString" = none ∧
    (forceState quietEnv alertCtrl "toString").returned = true ∧
    (forceState quietEnv alertCtrl "toString").currentStateStr = "toString" ∧
    (forceState quietEnv alertCtrl "toString").currentStateStr ≠
      State.name alertCtrl.currentState := by
  decide

/-- Claim C10, amended: forceState mutates only currentState whenever its
argument is truthy as a key of the state machine object, that is one of the
eight state names or an inherited Object.prototype member name such as
toString or constructor: previousState, the transition history and the
recorded click time are unchanged, no record is appended, the only
collaborator calls are animation requests (no entry or exit side effects
run), it returns true, and currentState holds the raw argument string.  For
every other string it returns false and changes nothing. -/
theorem c10_amended_forceState (env : Env) (c : Controller) (s : String) :
    (∀ st, parseState s = some st → stateMachineTruthy s = true) ∧
    (stateMachineTruthy s = true →
       (forceState env c s).currentStateStr = s ∧
       (forceState env c s).previousState = c.previousState ∧
       (forceState env c s).stateHistory = c.stateHistory ∧
       (forceState env c s).lastClickTime = c.lastClickTime ∧
       (forceState env c s).returned = true ∧
       (∀ e ∈ (forceState env c s).events, ∃ nm d, e = Ev.playAnimation nm d)) ∧
    (stateMachineTruthy s = false →
       forceState env c s =
         { currentStateStr := State.name c.currentState,
           previousState := c.previousState,
           stateHistory := c.stateHistory,
           lastClickTime := c.lastClickTime,
           events := [],
           returned := false }) := by
  refine ⟨?_, ?_, ?_⟩
  · intro st hst
    unfold stateMachineTruthy
    simp [hst]
  · intro h
    unfold forceState
    rw [if_pos h]
    refine ⟨rfl, rfl, rfl, rfl, rfl, ?_⟩
    intro e he
    split_ifs at he with hch
    · simp at he
      exact ⟨_, _, he⟩
    · simp at he
  · intro h
    unfold forceState
    rw [if_neg]
    simp [h]

theorem c10_amended_forceState_witness :
    stateMachineTruthy "sleeping" = true ∧
    ((forceState quietEnv alertCtrl "sleeping").currentStateStr =
       "sleeping" ∧
     (forceState quietEnv alertCtrl "sleeping").stateHistory =
       alertCtrl.stateHistory ∧
     (forceState quietEnv alertCtrl "sleeping").returned = true) ∧
    stateMachineTruthy "unknown_state" = false ∧
    forceState quietEnv alertCtrl "unknown_state" =
      { currentStateStr := State.name alertCtrl.currentState,
        previousState := alertCtrl.previousState,
        stateHistory := alertCtrl.stateHistory,
        lastClickTime := alertCtrl.lastClickTime,
        events := [],
        returned := false } :=
  ⟨by decide,
   ⟨((c10_amended_forceState quietEnv alertCtrl "sleeping").2.1 (by decide)).1,
    ((c10_amended_forceState quietEnv alertCtrl "sleeping").2.1
      (by decide)).2.2.1,
    ((c10_amended_forceState quietEnv alertCtrl "sleeping").2.1
      (by decide)).2.2.2.2.1⟩,
   by decide,
   (c10_amended_forceState quietEnv alertCtrl "unknown_state").2.2
     (by decide)⟩

/-- Claim C6: the direction classifier is a total function with quadrant
boundaries at the 45 and 135 degree lines assigned via half-open intervals
(every angle, including the wrap-around values at 180 and -180, satisfies
exactly one of the four characterizations below); the zero-length
displacement classifies as east; the displacement from (100,100) to
(200,100) classifies as east and from (100,100) to (100,200) as south. -/
theorem c6_direction_classifier_total :
    (∀ a : ℝ,
      (classifyAngle a = .east ↔ (-45 ≤ a ∧ a < 45)) ∧
      (classifyAngle a = .south ↔ (45 ≤ a ∧ a < 135)) ∧
      (classifyAngle a = .west ↔ (135 ≤ a ∨ a < -135)) ∧
      (classifyAngle a = .north ↔ (-135 ≤ a ∧ a < -45))) ∧
    (∀ x y : ℝ, getMouseDirection x y x y = .east) ∧
    getMouseDirection 100 100 200 100 = .east ∧
    getMouseDirection 100 100 100 200 = .south :=
  ⟨fun a => ⟨classifyAngle_east_iff a, classifyAngle_south_iff a,
     classifyAngle_west_iff a, classifyAngle_north_iff a⟩,
   getMouseDirection_self,
   getMouseDirection_east_example,
   getMouseDirection_south_example⟩

/-- Claim C2: over any sequence of per-tick elapsed times, each between 0
and the 100ms clamp, whose total equals N fixed steps, the scheduler
drains exactly N steps in total, each registered subsystem with an update
hook is invoked exactly N times, and every update invocation passes the
fixed step size as its delta. -/
theorem c2_scheduler_drains_exactly (env : SchedEnv) (dt : ℚ) (ds : List ℚ)
    (N k : ℕ) (hdt : 0 < dt) (hds : ∀ d ∈ ds, 0 ≤ d ∧ d ≤ 100)
    (hsum : ds.sum = N * dt) :
    (runTicks env k ⟨0, dt⟩ ds).2.2 = N ∧
    (∀ nm d, SEv.updateCalled nm d ∈ (runTicks env k ⟨0, dt⟩ ds).2.1 →
       d = dt) ∧
    (∀ nm sys, (env.systems.map Prod.fst).Nodup →
       (nm, sys) ∈ env.systems → sys.hasUpdate = true →
       (runTicks env k ⟨0, dt⟩ ds).2.1.countP (isUpdateCallFor nm) = N) := by
  obtain ⟨rd, ra, rn, rl, rm, rc⟩ :=
    runTicks_spec env dt hdt ds k 0 le_rfl hdt hds
  have hS : (runTicks env k ⟨0, dt⟩ ds).2.2 = N := by
    set S := (runTicks env k ⟨0, dt⟩ ds).2.2 with hSdef
    rw [hsum] at ra
    have hkey : ((N : ℚ) - S) * dt =
        (runTicks env k ⟨0, dt⟩ ds).1.accumulator := by
      rw [sub_mul]
      linarith [ra]
    have h1 : (0:ℚ) ≤ (N : ℚ) - S :=
      le_of_mul_le_mul_right (by rw [zero_mul]; linarith [rn, hkey]) hdt
    have h2 : (N : ℚ) - S < 1 :=
      lt_of_mul_lt_mul_right (by rw [one_mul]; linarith [rl, hkey]) hdt.le
    have hle : S ≤ N := by exact_mod_cast sub_nonneg.mp h1
    have hlt : N < S + 1 := by
      have hq : (N : ℚ) < (S : ℚ) + 1 := by linarith
      exact_mod_cast hq
    omega
  exact ⟨hS, rm, fun nm sys hnd hmem hup => hS ▸ rc nm sys hnd hmem hup⟩

theorem c2_scheduler_drains_exactly_witness :
    (0:ℚ) < 10 ∧ (∀ d ∈ ([25, 5] : List ℚ), 0 ≤ d ∧ d ≤ 100) ∧
    ([25, 5] : List ℚ).sum = ((3:ℕ) : ℚ) * 10 ∧
    (runTicks oneSysEnv 0 ⟨0, 10⟩ [25, 5]).2.2 = 3 :=
  ⟨by norm_num, by decide,
   by norm_num [List.sum_cons, List.sum_nil],
   (c2_scheduler_drains_exactly oneSysEnv 10 [25, 5] 3 0 (by norm_num)
     (by decide) (by norm_num [List.sum_cons, List.sum_nil])).1⟩

/-- Claim C7: per-subsystem fault isolation in the scheduler.  For any
assignment of throwing hooks (in particular one subsystem whose update
throws on tick k), each registered subsystem with the respective hook has
its update invoked and its render invoked both on tick k and on tick k+1
(given each tick drains at least one step, and render unconditionally),
and a throwing hook is logged, never aborting the loop. -/
theorem c7_fault_isolation (env : SchedEnv) (st : GameLoopState) (k : ℕ)
    (e1 e2 : ℚ) (nm : String) (sys : Subsys)
    (hdt : 0 < st.deltaTime) (hacc : 0 ≤ st.accumulator)
    (h1 : st.deltaTime ≤ min e1 100) (h2 : st.deltaTime ≤ min e2 100)
    (hmem : (nm, sys) ∈ env.systems) :
    (sys.hasUpdate = true →
       SEv.updateCalled nm st.deltaTime ∈ (gameLoopTick env k st e1).2.1 ∧
       SEv.updateCalled nm st.deltaTime ∈
         (gameLoopTick env (k + 1) (gameLoopTick env k st e1).1 e2).2.1) ∧
    (sys.hasRender = true →
       SEv.renderCalled nm ∈ (gameLoopTick env k st e1).2.1 ∧
       SEv.renderCalled nm ∈
         (gameLoopTick env (k + 1) (gameLoopTick env k st e1).1 e2).2.1) ∧
    (sys.hasUpdate = true → env.updateThrows nm k = true →
       SEv.updateErrorLogged nm ∈ (gameLoopTick env k st e1).2.1) ∧
    (sys.hasRender = true → env.renderThrows nm k = true →
       SEv.renderErrorLogged nm ∈ (gameLoopTick env k st e1).2.1) := by
  obtain ⟨acc, dt⟩ := st
  simp only at hdt hacc h1 h2 ⊢
  have hmin1 : (0:ℚ) ≤ min e1 100 := le_trans hdt.le h1
  have hacc1 : 0 ≤ acc + min e1 100 := add_nonneg hacc hmin1
  obtain ⟨hn2, hd2⟩ := gameLoopTick_acc_nonneg env k acc dt e1 hdt hacc1
  refine ⟨?_, ?_, ?_, ?_⟩
  · intro hup
    constructor
    · exact gameLoopTick_mem_update env k ⟨acc, dt⟩ e1 hacc h1 _
        (updateEventsFor_mem _ dt nm sys env.systems hmem hup)
    · have hstep2 : (gameLoopTick env k ⟨acc, dt⟩ e1).1.deltaTime ≤
          min e2 100 := by rw [hd2]; exact h2
      have hev2 : SEv.updateCalled nm dt ∈ updateSystemsEvents env (k + 1)
          (gameLoopTick env k ⟨acc, dt⟩ e1).1.deltaTime := by
        rw [hd2]
        exact updateEventsFor_mem _ dt nm sys env.systems hmem hup
      exact gameLoopTick_mem_update env (k + 1) _ e2 hn2 hstep2 _ hev2
  · intro hrn
    exact ⟨gameLoopTick_mem_render env k _ e1 _
        (renderEventsFor_mem _ nm sys env.systems hmem hrn),
      gameLoopTick_mem_render env (k + 1) _ e2 _
        (renderEventsFor_mem _ nm sys env.systems hmem hrn)⟩
  · intro hup hth
    exact gameLoopTick_mem_update env k ⟨acc, dt⟩ e1 hacc h1 _
      (updateEventsFor_mem_err _ dt nm sys env.systems hmem hup hth)
  · intro hrn hth
    exact gameLoopTick_mem_render env k _ e1 _
      (renderEventsFor_mem_err _ nm sys env.systems hmem hrn hth)

theorem c7_fault_isolation_witness :
    (SEv.updateCalled "b" 10 ∈ (gameLoopTick twoSysEnv 0 ⟨0, 10⟩ 10).2.1 ∧
     SEv.updateCalled "b" 10 ∈
       (gameLoopTick twoSysEnv 1
         (gameLoopTick twoSysEnv 0 ⟨0, 10⟩ 10).1 10).2.1) ∧
    (SEv.renderCalled "a" ∈ (gameLoopTick twoSysEnv 0 ⟨0, 10⟩ 10).2.1 ∧
     SEv.renderCalled "a" ∈
       (gameLoopTick twoSysEnv 1
         (gameLoopTick twoSysEnv 0 ⟨0, 10⟩ 10).1 10).2.1) ∧
    SEv.updateErrorLogged "a" ∈ (gameLoopTick twoSysEnv 0 ⟨0, 10⟩ 10).2.1 :=
  ⟨(c7_fault_isolation twoSysEnv ⟨0, 10⟩ 0 10 10 "b" ⟨true, true⟩
      (by norm_num) le_rfl (by norm_num) (by norm_num) (by decide)).1 rfl,
   (c7_fault_isolation twoSysEnv ⟨0, 10⟩ 0 10 10 "a" ⟨true, true⟩
      (by norm_num) le_rfl (by norm_num) (by norm_num) (by decide)).2.1 rfl,
   (c7_fault_isolation twoSysEnv ⟨0, 10⟩ 0 10 10 "a" ⟨true, true⟩
      (by norm_num) le_rfl (by norm_num) (by norm_num) (by decide)).2.2.1
     rfl (by decide)⟩

end Testownweb
